import Mathlib

/-!
# Task resource API: handlers of `src/tasks.js` over the schema of `src/Task.js`

The four Express handlers (`router.post`, `router.get`, `router.put`,
`router.delete`) are embedded as pure functions from the request data and the
current collection to a result made of

* the outcome of the handler (the HTTP response it sends, or the fact that a
  `TypeError` escaped the handler before its `try` block),
* the collection after the request,
* the list of model calls (`Task.create`, `Task.find`, ...) the handler made.

Request data are JavaScript values as `JSON.parse` / the query-string parser
deliver them (`JsVal`); an absent key of `req.body` or `req.query` is
`JsVal.undefined`, which is what destructuring yields for it.

The model layer (`Task.create`, `Task.find(...).sort(...)`,
`Task.findByIdAndUpdate`, `Task.findByIdAndDelete`) is the Mongoose model built
from `TaskSchema`: every path option written in `src/Task.js` (`required`,
`trim`, `enum`, `default`) is interpreted in `StringPath.applySetters`,
`StringPath.validate` and `Task.create`, following the documented behaviour of
the library: a default fills a path only when the supplied value is
`undefined`; setters (`trim`) and the cast to String run on create and on
update; validators are skipped on `undefined`, except `required`; a value that
cannot be cast makes `create` reject with a `ValidationError` and
`findByIdAndUpdate` reject with a `CastError`.  Two points are left to the
installed library version and are therefore fields of `Driver`: which strings
are well-formed identifiers, and whether the `enum` validator lets `null`
through.  The collection is assumed to be available: the only store errors are
cast and validation errors.  Identifiers are natural numbers handed out in
increasing order, creation times are natural numbers supplied with the
request (`Date.now`), and every document carries the version key `__v`, which
`create` sets to 0 and none of the calls made here changes.
-/

set_option autoImplicit false

namespace TaskApi

/-! ## JavaScript values -/

/-- A JavaScript value as it can arrive in a parsed JSON body or query string.
Strings are sequences of Unicode scalar values.  A number is given by the
string `Number.prototype.toString` renders for it (`"5"`, `"0.5"`, `"1e+21"`;
both zeros render `"0"`, and a parsed body holds no `NaN`): the code observes a
number only through its truthiness, through its not being a string, and
through this rendering when the schema casts it. -/
inductive JsVal where
  | undefined
  | null
  | bool (b : Bool)
  | num (rendering : String)
  | str (s : String)
  | arr (items : List JsVal)
  | obj (fields : List (String × JsVal))

namespace JsVal

/-- ToBoolean: what `!v`, `v && ...` and `if (v)` test. -/
def truthy : JsVal → Bool
  | undefined => false
  | null => false
  | bool b => b
  | num r => r != "0"
  | str s => s != ""
  | arr _ => true
  | obj _ => true

/-- The test `v !== undefined`. -/
def isDefined : JsVal → Bool
  | undefined => false
  | _ => true

end JsVal

/-- WhiteSpace and LineTerminator code points, the ones `String.prototype.trim`
removes. -/
def isJsWhitespace (c : Char) : Bool :=
  let n := c.toNat
  n == 0x09 || n == 0x0A || n == 0x0B || n == 0x0C || n == 0x0D || n == 0x20 ||
  n == 0xA0 || n == 0x1680 || (0x2000 ≤ n && n ≤ 0x200A) || n == 0x2028 ||
  n == 0x2029 || n == 0x202F || n == 0x205F || n == 0x3000 || n == 0xFEFF

/-- Trimming of a list of characters at both ends. -/
def trimChars (cs : List Char) : List Char :=
  ((cs.dropWhile isJsWhitespace).reverse.dropWhile isJsWhitespace).reverse

/-- The method `String.prototype.trim`. -/
def jsTrim (s : String) : String :=
  String.mk (trimChars s.data)

/-- The call `v.trim()` on an arbitrary value: only a string has a callable
`trim`; on `undefined` / `null` the property access throws, on every other JSON
value `v.trim` is not a function.  `none` stands for the `TypeError`. -/
def JsVal.callTrim : JsVal → Option String
  | .str s => some (jsTrim s)
  | _ => none

/-- The constant `VALID_STATUSES` of `src/tasks.js`. -/
def VALID_STATUSES : List String := ["Pending", "Completed"]

/-- The call `VALID_STATUSES.includes(v)`: SameValueZero against the two
strings, so only a string can be included. -/
def validStatusesIncludes : JsVal → Bool
  | .str s => VALID_STATUSES.contains s
  | _ => false

/-! ## The schema of `src/Task.js` -/

/-- Options of one `type: String` path of a schema. -/
structure StringPath where
  required : Bool
  trim : Bool
  enumValues : Option (List String)
  default : Option String

/-- The three string paths of `TaskSchema`, option by option as in
`src/Task.js`.  The fourth path, `createdAt`, has `default: Date.now` and is
filled in by `Task.create`. -/
structure TaskSchemaPaths where
  title : StringPath
  description : StringPath
  status : StringPath

/-- The schema `TaskSchema`. -/
def TaskSchema : TaskSchemaPaths where
  title := ⟨true, true, none, none⟩
  description := ⟨false, true, none, none⟩
  status := ⟨false, false, some ["Pending", "Completed"], some "Pending"⟩

/-- What is taken from the installed driver and library version. -/
structure Driver where
  /-- Cast of the route parameter to an ObjectId; `none` is a `CastError`. -/
  castObjectId : String → Option Nat
  /-- Whether the `enum` validator of a string path accepts `null`.  Releases
  whose validator reads `null == v || ~vals.indexOf(v)` do; releases whose
  validator reads `undefined === v || ~vals.indexOf(v)` do not. -/
  enumAllowsNull : Bool

/-- Names of the errors the model layer throws. -/
inductive StoreError where
  | castError
  | validationError
  deriving DecidableEq, Repr

/-- Cast of a value to the schema type String: nullish values pass, a string is
kept, a number or boolean becomes its `toString` rendering, an object holding a
non-empty string `_id` yields it, and any other plain object or array is a cast
failure (`none`), since its `toString` is the one of `Object.prototype` or it
is an array. -/
def castString : JsVal → Option JsVal
  | .undefined => some .undefined
  | .null => some .null
  | .str s => some (.str s)
  | .num r => some (.str r)
  | .bool b => some (.str (if b then "true" else "false"))
  | .arr _ => none
  | .obj fields =>
    match fields.lookup "_id" with
    | some (.str s) => if s != "" then some (.str s) else none
    | _ => none

/-- Setters followed by the cast of a string path: the value is cast and, under
`trim: true`, a non-empty string is trimmed. -/
def StringPath.applySetters (p : StringPath) (v : JsVal) : Option JsVal :=
  match castString v with
  | none => none
  | some (.str s) => some (.str (if p.trim then jsTrim s else s))
  | some w => some w

/-- Validators of a string path on a cast value: `required` rejects nullish
values and the empty string; `enum` is skipped on `undefined`, accepts `null`
when the driver says so, and accepts exactly the listed strings. -/
def StringPath.validate (drv : Driver) (p : StringPath) (v : JsVal) : Bool :=
  (match p.required, v with
    | false, _ => true
    | true, .str s => s != ""
    | true, _ => false) &&
  (match p.enumValues, v with
    | none, _ => true
    | some _, .undefined => true
    | some _, .null => drv.enumAllowsNull
    | some vals, .str s => vals.contains s
    | some _, _ => false)

/-- Value of a path at construction: a key that is `undefined` takes the path
default, if there is one; any other value goes through the setters. -/
def StringPath.construct (p : StringPath) (v : JsVal) : Option JsVal :=
  match v with
  | .undefined =>
    match p.default with
    | some d => some (.str d)
    | none => some .undefined
  | w => p.applySetters w

/-! ## Documents and the collection -/

/-- A stored task document, with the keys it has in the collection and in
every response: the four paths of `TaskSchema`, the identifier, and the version
key `__v` that the model adds to each document since the schema sets no
`versionKey` option. -/
structure Task where
  _id : Nat
  title : JsVal
  description : JsVal
  status : JsVal
  createdAt : Nat
  __v : Nat

/-- The collection: the documents in insertion order and the next identifier
the driver will generate. -/
structure Db where
  docs : List Task
  nextId : Nat

/-- The object literal passed to `Task.create`. -/
structure CreateArgs where
  title : JsVal
  description : JsVal
  status : JsVal

/-- The object `updates` of the update handler: `none` is an absent key. -/
structure Updates where
  title : Option JsVal
  description : Option JsVal
  status : Option JsVal

/-- The object `filter` of the list handler: `undefined` is an absent key. -/
structure Filter where
  status : JsVal

/-- Model call `Task.create(args)` at time `now`: build the document path by
path, validate it, insert it with a fresh identifier, `createdAt` set to
`now` and the version key set to 0.  A path that cannot be cast or fails a validator makes the call reject
with a `ValidationError`, and nothing is inserted. -/
def Task.create (drv : Driver) (now : Nat) (args : CreateArgs) (db : Db) :
    Except StoreError (Task × Db) :=
  match TaskSchema.title.construct args.title,
        TaskSchema.description.construct args.description,
        TaskSchema.status.construct args.status with
  | some t, some d, some s =>
    if TaskSchema.title.validate drv t && TaskSchema.description.validate drv d &&
        TaskSchema.status.validate drv s then
      let task : Task := ⟨db.nextId, t, d, s, now, 0⟩
      .ok (task, ⟨db.docs ++ [task], db.nextId + 1⟩)
    else .error .validationError
  | _, _, _ => .error .validationError

/-- Whether a document matches the query filter. -/
def Filter.matches (f : Filter) (t : Task) : Bool :=
  match f.status, t.status with
  | .undefined, _ => true
  | .str a, .str b => a == b
  | _, _ => false

/-- Model call `Task.find(filter).sort(\x7b createdAt: -1 \x7d)`. -/
def Task.find (f : Filter) (db : Db) : List Task :=
  (db.docs.filter f.matches).insertionSort (fun a b => b.createdAt ≤ a.createdAt)

/-- Cast of one key of an update: absent stays absent. -/
def StringPath.castUpdate (p : StringPath) : Option JsVal → Option (Option JsVal)
  | none => some none
  | some v =>
    match p.applySetters v with
    | none => none
    | some w => some (some w)

/-- Update validators (`runValidators: true`) on one key of an update. -/
def StringPath.validateUpdate (drv : Driver) (p : StringPath) : Option JsVal → Bool
  | none => true
  | some v => p.validate drv v

/-- The stored document after `$set` of the keys present in the update; the
identifier, `createdAt` and the version key are not touched. -/
def Task.applyUpdates (t : Task) (u : Updates) : Task :=
  ⟨t._id, u.title.getD t.title, u.description.getD t.description,
    u.status.getD t.status, t.createdAt, t.__v⟩

/-- Replace the first document with the given identifier. -/
def replaceById (oid : Nat) (new : Task) : List Task → List Task
  | [] => []
  | t :: ts => if t._id == oid then new :: ts else t :: replaceById oid new ts

/-- Model call `Task.findByIdAndUpdate(id, updates, \x7b new: true,
runValidators: true \x7d)`: `none` is the `null` returned when no document has the
identifier. -/
def Task.findByIdAndUpdate (drv : Driver) (id : String) (u : Updates) (db : Db) :
    Except StoreError (Option Task × Db) :=
  match drv.castObjectId id with
  | none => .error .castError
  | some oid =>
    match TaskSchema.title.castUpdate u.title,
          TaskSchema.description.castUpdate u.description,
          TaskSchema.status.castUpdate u.status with
    | some t, some d, some s =>
      if TaskSchema.title.validateUpdate drv t &&
          TaskSchema.description.validateUpdate drv d &&
          TaskSchema.status.validateUpdate drv s then
        match db.docs.find? (fun x => x._id == oid) with
        | none => .ok (none, db)
        | some old =>
          let new := old.applyUpdates ⟨t, d, s⟩
          .ok (some new, ⟨replaceById oid new db.docs, db.nextId⟩)
      else .error .validationError
    | _, _, _ => .error .castError

/-- Remove the first document with the given identifier. -/
def removeById (oid : Nat) : List Task → List Task
  | [] => []
  | t :: ts => if t._id == oid then ts else t :: removeById oid ts

/-- Model call `Task.findByIdAndDelete(id)`. -/
def Task.findByIdAndDelete (drv : Driver) (id : String) (db : Db) :
    Except StoreError (Option Task × Db) :=
  match drv.castObjectId id with
  | none => .error .castError
  | some oid =>
    match db.docs.find? (fun x => x._id == oid) with
    | none => .ok (none, db)
    | some old => .ok (some old, ⟨removeById oid db.docs, db.nextId⟩)

/-! ## The handlers of `src/tasks.js` -/

/-- The three keys the handlers destructure from `req.body`, which is the
object delivered by the body parser. -/
structure Body where
  title : JsVal
  description : JsVal
  status : JsVal

/-- JSON sent with a response. -/
inductive ResBody where
  | message (m : String)
  | task (t : Task)
  | tasks (ts : List Task)

/-- What a handler does with the request: it sends a response, or a
`TypeError` leaves the handler outside any `try`, so that the handler itself
sends nothing. -/
inductive Outcome where
  | response (code : Nat) (body : ResBody)
  | uncaught

/-- A call of the model layer. -/
inductive StoreCall where
  | create (args : CreateArgs)
  | find (f : Filter)
  | findByIdAndUpdate (id : String) (u : Updates)
  | findByIdAndDelete (id : String)

/-- Result of running a handler. -/
structure Result where
  outcome : Outcome
  db : Db
  calls : List StoreCall

/-- HTTP status of an outcome, if a response was sent. -/
def Outcome.code? : Outcome → Option Nat
  | .response c _ => some c
  | .uncaught => none

/-- Handler `router.post('/')`. -/
def routerPost (drv : Driver) (now : Nat) (body : Body) (db : Db) : Result :=
  if !body.title.truthy then
    ⟨.response 400 (.message "Title is required"), db, []⟩
  else
    match body.title.callTrim with
    | none => ⟨.uncaught, db, []⟩
    | some trimmed =>
      if !(JsVal.str trimmed).truthy then
        ⟨.response 400 (.message "Title is required"), db, []⟩
      else if body.status.truthy && !validStatusesIncludes body.status then
        ⟨.response 400 (.message "Invalid status value"), db, []⟩
      else
        let args : CreateArgs := ⟨.str trimmed, body.description, body.status⟩
        match Task.create drv now args db with
        | .ok (task, db') => ⟨.response 201 (.task task), db', [.create args]⟩
        | .error _ =>
          ⟨.response 500 (.message "Failed to create task"), db, [.create args]⟩

/-- The object `filter` built by `router.get('/')` from `req.query.status`. -/
def parseStatusFilter (status : JsVal) : Filter :=
  if status.truthy && validStatusesIncludes status then ⟨status⟩ else ⟨.undefined⟩

/-- Handler `router.get('/')`. -/
def routerGet (status : JsVal) (db : Db) : Result :=
  let filter := parseStatusFilter status
  ⟨.response 200 (.tasks (Task.find filter db)), db, [.find filter]⟩

/-- Where the first part of the `try` block of `router.put('/:id')` ends: with
a response, with a thrown `TypeError`, or with the object `updates`. -/
inductive UpdateStep where
  | respond (code : Nat) (m : String)
  | typeError
  | updates (u : Updates)

/-- Lines 51 to 63 of `src/tasks.js`: construction of `updates`. -/
def buildUpdates (body : Body) : UpdateStep :=
  let withRest (title : Option JsVal) : UpdateStep :=
    .updates ⟨title,
      if body.description.isDefined then some body.description else none,
      if body.status.truthy then some body.status else none⟩
  if body.title.isDefined then
    match body.title.callTrim with
    | none => .typeError
    | some trimmed =>
      if !(JsVal.str trimmed).truthy then .respond 400 "Title cannot be empty"
      else withRest (some (.str trimmed))
  else withRest none

/-- Handler `router.put('/:id')`. -/
def routerPut (drv : Driver) (id : String) (body : Body) (db : Db) : Result :=
  if body.status.truthy && !validStatusesIncludes body.status then
    ⟨.response 400 (.message "Invalid status value"), db, []⟩
  else
    match buildUpdates body with
    | .respond code m => ⟨.response code (.message m), db, []⟩
    | .typeError => ⟨.response 500 (.message "Failed to update task"), db, []⟩
    | .updates u =>
      match Task.findByIdAndUpdate drv id u db with
      | .ok (some task, db') =>
        ⟨.response 200 (.task task), db', [.findByIdAndUpdate id u]⟩
      | .ok (none, db') =>
        ⟨.response 404 (.message "Task not found"), db', [.findByIdAndUpdate id u]⟩
      | .error .castError =>
        ⟨.response 400 (.message "Invalid task ID"), db, [.findByIdAndUpdate id u]⟩
      | .error .validationError =>
        ⟨.response 500 (.message "Failed to update task"), db, [.findByIdAndUpdate id u]⟩

/-- Handler `router.delete('/:id')`. -/
def routerDelete (drv : Driver) (id : String) (db : Db) : Result :=
  match Task.findByIdAndDelete drv id db with
  | .ok (some _, db') =>
    ⟨.response 200 (.message "Task deleted"), db', [.findByIdAndDelete id]⟩
  | .ok (none, db') =>
    ⟨.response 404 (.message "Task not found"), db', [.findByIdAndDelete id]⟩
  | .error .castError =>
    ⟨.response 400 (.message "Invalid task ID"), db, [.findByIdAndDelete id]⟩
  | .error .validationError =>
    ⟨.response 500 (.message "Failed to delete task"), db, [.findByIdAndDelete id]⟩

/-! ## A concrete driver -/

/-- Value of a hexadecimal digit. -/
def hexDigit? (c : Char) : Option Nat :=
  if 48 ≤ c.toNat && c.toNat ≤ 57 then some (c.toNat - 48)
  else if 97 ≤ c.toNat && c.toNat ≤ 102 then some (c.toNat - 87)
  else if 65 ≤ c.toNat && c.toNat ≤ 70 then some (c.toNat - 55)
  else none

/-- Value of a string of hexadecimal digits read from the left. -/
def hexValue? : List Char → Nat → Option Nat
  | [], acc => some acc
  | c :: cs, acc =>
    match hexDigit? c with
    | none => none
    | some d => hexValue? cs (16 * acc + d)

/-- An ObjectId written as 24 hexadecimal digits. -/
def objectIdOfHex (s : String) : Option Nat :=
  if s.data.length = 24 then hexValue? s.data 0 else none

/-- A driver that reads identifiers as 24 hexadecimal digits and whose `enum`
validator accepts `null`. -/
def hexDriver : Driver := ⟨objectIdOfHex, true⟩

/-- The same identifiers with an `enum` validator that rejects `null`. -/
def strictDriver : Driver := ⟨objectIdOfHex, false⟩

/-! ## Predicates used in the statements -/

/-- Shape of the update maps the handler builds: the title, when present, is a
trimmed string that is not empty, and the status, when present, is one of the
two enum values. -/
def Updates.Checked (u : Updates) : Prop :=
  (u.title = none ∨ ∃ t, u.title = some (.str t) ∧ t ≠ "" ∧ jsTrim t = t) ∧
  (u.status = none ∨ u.status = some (.str "Pending") ∨ u.status = some (.str "Completed"))

/-- A payload that the update handler and the schema accept: the title is
absent or a string that is not blank, the description is absent or a value the
String cast accepts, and the status is one of the two enum values or a falsy
value (which the handler reads as absent). -/
def validUpdatePayload (body : Body) : Bool :=
  (match body.title with
    | .undefined => true
    | .str s => jsTrim s != ""
    | _ => false) &&
  (castString body.description).isSome &&
  (!body.status.truthy || validStatusesIncludes body.status)

/-- Collections reachable from the empty one through the create, update and
delete handlers. -/
inductive Reachable (drv : Driver) : Db → Prop where
  | empty : Reachable drv ⟨[], 0⟩
  | post (now : Nat) (body : Body) (db : Db) :
    Reachable drv db → Reachable drv (routerPost drv now body db).db
  | put (id : String) (body : Body) (db : Db) :
    Reachable drv db → Reachable drv (routerPut drv id body db).db
  | delete (id : String) (db : Db) :
    Reachable drv db → Reachable drv (routerDelete drv id db).db

/-- The title of a stored task is a string that is not empty after trimming. -/
def Task.titleOk (t : Task) : Bool :=
  match t.title with
  | .str s => jsTrim s != ""
  | _ => false

/-- The status of a stored task is one of the two values of `VALID_STATUSES`. -/
def Task.statusInEnum (t : Task) : Bool :=
  validStatusesIncludes t.status

/-! ## Trimming -/

theorem trimChars_eq_rdropWhile (cs : List Char) :
    trimChars cs = (cs.dropWhile isJsWhitespace).rdropWhile isJsWhitespace := rfl

theorem trimChars_of_all_whitespace (cs : List Char)
    (h : ∀ c ∈ cs, isJsWhitespace c = true) : trimChars cs = [] := by
  have h1 : cs.dropWhile isJsWhitespace = [] := by
    rw [List.dropWhile_eq_nil_iff]
    exact h
  simp [trimChars, h1]

theorem trimChars_idem (cs : List Char) : trimChars (trimChars cs) = trimChars cs := by
  have hdrop : (trimChars cs).dropWhile isJsWhitespace = trimChars cs := by
    rw [trimChars_eq_rdropWhile]
    generalize hl : cs.dropWhile isJsWhitespace = l
    have hhead : l.dropWhile isJsWhitespace = l := by
      rw [← hl, List.dropWhile_idempotent]
    rw [List.dropWhile_eq_self_iff] at hhead ⊢
    intro hpos
    have hlpos : 0 < l.length :=
      lt_of_lt_of_le hpos (List.rdropWhile_prefix _ _).length_le
    have hget : (l.rdropWhile isJsWhitespace).get ⟨0, hpos⟩ = l.get ⟨0, hlpos⟩ :=
      List.IsPrefix.getElem (List.rdropWhile_prefix _ _) hpos
    rw [hget]
    exact hhead hlpos
  rw [trimChars_eq_rdropWhile (trimChars cs), hdrop, trimChars_eq_rdropWhile,
    List.rdropWhile_idempotent]

theorem jsTrim_idem (s : String) : jsTrim (jsTrim s) = jsTrim s := by
  simp [jsTrim, trimChars_idem]

theorem jsTrim_eq_empty_iff (s : String) : jsTrim s = "" ↔ trimChars s.data = [] := by
  unfold jsTrim
  constructor
  · intro h
    have := congrArg String.data h
    simpa using this
  · intro h
    rw [h]

theorem str_truthy_iff (s : String) : (JsVal.str s).truthy = true ↔ s ≠ "" := by
  simp [JsVal.truthy]

/-! ## Validation failures of the create and update handlers -/

/-- C2: a create payload whose title is missing, the empty string, or a string
of whitespace only is answered 400 with the message `Title is required`; the
collection is unchanged and no model call is made, so `Task.create` is never
called. -/
theorem C2_create_blank_title_rejected (drv : Driver) (now : Nat) (body : Body) (db : Db)
    (h : body.title = .undefined ∨ body.title = .str "" ∨
      ∃ s, body.title = .str s ∧ ∀ c ∈ s.data, isJsWhitespace c = true) :
    routerPost drv now body db =
      ⟨.response 400 (.message "Title is required"), db, []⟩ := by
  rcases h with h | h | ⟨s, h, hs⟩
  · simp [routerPost, h, JsVal.truthy]
  · simp [routerPost, h, JsVal.truthy]
  · have htrim : jsTrim s = "" :=
      (jsTrim_eq_empty_iff s).2 (trimChars_of_all_whitespace _ hs)
    by_cases hne : s = ""
    · simp [routerPost, h, JsVal.truthy, hne]
    · simp [routerPost, h, JsVal.truthy, hne, JsVal.callTrim, htrim]

theorem C2_create_blank_title_rejected_witness :
    routerPost hexDriver 7 ⟨.str " \t\n", .str "d", .str "Pending"⟩ ⟨[], 0⟩ =
      ⟨.response 400 (.message "Title is required"), ⟨[], 0⟩, []⟩ :=
  C2_create_blank_title_rejected hexDriver 7 ⟨.str " \t\n", .str "d", .str "Pending"⟩ ⟨[], 0⟩
    (Or.inr (Or.inr ⟨" \t\n", rfl, by decide⟩))

/-- C10: an update payload whose title is a string that is empty after trimming
is answered 400 for every identifier and every collection; the collection is
unchanged and no model call is made, so `findByIdAndUpdate` is never called. -/
theorem C10_update_blank_title_rejected (drv : Driver) (id : String) (body : Body) (db : Db)
    (s : String) (h : body.title = .str s) (hs : jsTrim s = "") :
    ∃ m, routerPut drv id body db = ⟨.response 400 (.message m), db, []⟩ := by
  by_cases hst : (body.status.truthy && !validStatusesIncludes body.status) = true
  · exact ⟨"Invalid status value", by simp [routerPut, hst]⟩
  · refine ⟨"Title cannot be empty", ?_⟩
    unfold routerPut
    rw [if_neg hst]
    simp [buildUpdates, h, JsVal.isDefined, JsVal.callTrim, hs, JsVal.truthy]

theorem C10_update_blank_title_rejected_witness :
    ∃ m, routerPut hexDriver "not-an-id" ⟨.str "  ", .undefined, .undefined⟩ ⟨[], 0⟩ =
      ⟨.response 400 (.message m), ⟨[], 0⟩, []⟩ :=
  C10_update_blank_title_rejected hexDriver "not-an-id" ⟨.str "  ", .undefined, .undefined⟩
    ⟨[], 0⟩ "  " rfl (by decide)

/-! ## The sparse update map -/

theorem buildUpdates_keys (body : Body) (u : Updates) (h : buildUpdates body = .updates u) :
    (∀ t, u.title = some t →
      body.title.isDefined = true ∧ ∃ s, body.title = .str s ∧ t = .str (jsTrim s)) ∧
    (∀ d, u.description = some d →
      body.description.isDefined = true ∧ d = body.description) ∧
    (∀ s, u.status = some s → body.status.isDefined = true ∧ s = body.status) := by
  have hstatus : ∀ v : JsVal, v.truthy = true → v.isDefined = true := by
    intro v hv
    cases v <;> simp_all [JsVal.truthy, JsVal.isDefined]
  unfold buildUpdates at h
  by_cases ht : body.title.isDefined = true
  · rw [if_pos ht] at h
    cases htitle : body.title with
    | str s0 =>
      rw [htitle] at h
      simp only [JsVal.callTrim] at h
      split at h
      · cases h
      · injection h with h
        subst h
        refine ⟨?_, ?_, ?_⟩
        · intro t hte
          simp only [Option.some.injEq] at hte
          exact ⟨by simp [JsVal.isDefined], s0, rfl, hte.symm⟩
        · intro d hd
          by_cases hdef : body.description.isDefined = true
          · simp [hdef] at hd
            exact ⟨hdef, hd.symm⟩
          · simp [hdef] at hd
        · intro s hs
          by_cases htr : body.status.truthy = true
          · simp [htr] at hs
            exact ⟨hstatus _ htr, hs.symm⟩
          · simp [htr] at hs
    | undefined => rw [htitle] at ht; simp [JsVal.isDefined] at ht
    | null => rw [htitle] at h; simp [JsVal.callTrim] at h
    | bool b => rw [htitle] at h; simp [JsVal.callTrim] at h
    | num n => rw [htitle] at h; simp [JsVal.callTrim] at h
    | arr l => rw [htitle] at h; simp [JsVal.callTrim] at h
    | obj l => rw [htitle] at h; simp [JsVal.callTrim] at h
  · rw [if_neg ht] at h
    injection h with h
    subst h
    refine ⟨?_, ?_, ?_⟩
    · intro t hte
      simp at hte
    · intro d hd
      by_cases hdef : body.description.isDefined = true
      · simp [hdef] at hd
        exact ⟨hdef, hd.symm⟩
      · simp [hdef] at hd
    · intro s hs
      by_cases htr : body.status.truthy = true
      · simp [htr] at hs
        exact ⟨hstatus _ htr, hs.symm⟩
      · simp [htr] at hs

theorem routerPut_calls (drv : Driver) (id : String) (body : Body) (db : Db) :
    (routerPut drv id body db).calls = [] ∨
    ∃ u, buildUpdates body = .updates u ∧
      (routerPut drv id body db).calls = [.findByIdAndUpdate id u] := by
  unfold routerPut
  split
  · exact Or.inl rfl
  · cases hb : buildUpdates body with
    | respond code m => exact Or.inl rfl
    | typeError => exact Or.inl rfl
    | updates u =>
      refine Or.inr ⟨u, rfl, ?_⟩
      simp only
      split <;> rfl

theorem find?_id_eq (oid : Nat) (docs : List Task) (old : Task)
    (h : docs.find? (fun x => x._id == oid) = some old) : old._id = oid := by
  have := List.find?_some h
  simpa using this

/-- C3: whenever the update handler calls `findByIdAndUpdate`, every key of the
update map it hands over was present in the payload and carries the payload
value (the title trimmed); for a payload holding only a valid status the map is
exactly the status, and the updated document keeps its identifier, title,
description and creation time. -/
theorem C3_sparse_update_map :
    (∀ (drv : Driver) (id id' : String) (body : Body) (db : Db) (u : Updates),
      StoreCall.findByIdAndUpdate id' u ∈ (routerPut drv id body db).calls →
        (∀ t, u.title = some t →
          body.title.isDefined = true ∧ ∃ s, body.title = .str s ∧ t = .str (jsTrim s)) ∧
        (∀ d, u.description = some d →
          body.description.isDefined = true ∧ d = body.description) ∧
        (∀ s, u.status = some s → body.status.isDefined = true ∧ s = body.status)) ∧
    (∀ (drv : Driver) (id : String) (db : Db) (s : String), s ∈ VALID_STATUSES →
      buildUpdates ⟨.undefined, .undefined, .str s⟩ = .updates ⟨none, none, some (.str s)⟩ ∧
      ∀ oid old, drv.castObjectId id = some oid →
        db.docs.find? (fun x => x._id == oid) = some old →
        routerPut drv id ⟨.undefined, .undefined, .str s⟩ db =
          ⟨.response 200 (.task ⟨old._id, old.title, old.description, .str s, old.createdAt, old.__v⟩),
            ⟨replaceById oid ⟨old._id, old.title, old.description, .str s, old.createdAt, old.__v⟩
              db.docs, db.nextId⟩,
            [.findByIdAndUpdate id ⟨none, none, some (.str s)⟩]⟩) := by
  constructor
  · intro drv id id' body db u hmem
    rcases routerPut_calls drv id body db with h0 | ⟨u0, hb, hc⟩
    · rw [h0] at hmem
      simp at hmem
    · rw [hc] at hmem
      simp only [List.mem_singleton, StoreCall.findByIdAndUpdate.injEq] at hmem
      rw [hmem.2]
      exact buildUpdates_keys body u0 hb
  · intro drv id db s hs
    have hs' : s = "Pending" ∨ s = "Completed" := by simpa [VALID_STATUSES] using hs
    have hne : s ≠ "" := by
      rcases hs' with h | h <;> rw [h] <;> decide
    have hb : buildUpdates ⟨.undefined, .undefined, .str s⟩ =
        .updates ⟨none, none, some (.str s)⟩ := by
      simp [buildUpdates, JsVal.isDefined, JsVal.truthy, hne]
    refine ⟨hb, ?_⟩
    intro oid old hid hfind
    have hincl : validStatusesIncludes (.str s) = true := by
      rcases hs' with h | h <;> rw [h] <;> decide
    unfold routerPut
    simp only [hincl, hb, Bool.not_true, Bool.and_false, Bool.false_eq_true, if_false]
    simp [Task.findByIdAndUpdate, hid, hfind, StringPath.castUpdate, StringPath.applySetters,
      castString, TaskSchema, StringPath.validateUpdate, StringPath.validate,
      Task.applyUpdates, hs']

theorem C3_sparse_update_map_witness :
    routerPut hexDriver "000000000000000000000000" ⟨.undefined, .undefined, .str "Completed"⟩
        ⟨[⟨0, .str "Buy milk", .str "2 litres", .str "Pending", 10, 0⟩], 1⟩ =
      ⟨.response 200 (.task ⟨0, .str "Buy milk", .str "2 litres", .str "Completed", 10, 0⟩),
        ⟨[⟨0, .str "Buy milk", .str "2 litres", .str "Completed", 10, 0⟩], 1⟩,
        [.findByIdAndUpdate "000000000000000000000000" ⟨none, none, some (.str "Completed")⟩]⟩ :=
  (C3_sparse_update_map.2 hexDriver "000000000000000000000000"
    ⟨[⟨0, .str "Buy milk", .str "2 litres", .str "Pending", 10, 0⟩], 1⟩ "Completed"
    (by decide)).2 0 ⟨0, .str "Buy milk", .str "2 litres", .str "Pending", 10, 0⟩ rfl rfl

/-! ## Listing: filter and order -/

theorem validStatusesIncludes_iff (v : JsVal) :
    validStatusesIncludes v = true ↔ v = .str "Pending" ∨ v = .str "Completed" := by
  cases v <;> simp [validStatusesIncludes, VALID_STATUSES]

theorem truthy_of_validStatusesIncludes (v : JsVal) (h : validStatusesIncludes v = true) :
    v.truthy = true := by
  rcases (validStatusesIncludes_iff v).1 h with h | h <;> rw [h] <;> decide

theorem parseStatusFilter_valid (v : JsVal) (h : validStatusesIncludes v = true) :
    parseStatusFilter v = ⟨v⟩ := by
  simp [parseStatusFilter, h, truthy_of_validStatusesIncludes v h]

theorem parseStatusFilter_invalid (v : JsVal) (h : validStatusesIncludes v = false) :
    parseStatusFilter v = ⟨.undefined⟩ := by
  simp [parseStatusFilter, h]

theorem Filter.matches_str (a : String) (t : Task) :
    (Filter.mk (.str a)).matches t = true ↔ t.status = .str a := by
  cases hts : t.status with
  | str b =>
    simp only [Filter.matches, hts, beq_iff_eq, JsVal.str.injEq]
    exact eq_comm
  | _ => simp [Filter.matches, hts]

theorem Filter.matches_parseStatusFilter (status : JsVal) (t : Task) :
    (parseStatusFilter status).matches t = true ↔
      ((status = .str "Pending" ∨ status = .str "Completed") → t.status = status) := by
  by_cases hv : validStatusesIncludes status = true
  · rw [parseStatusFilter_valid status hv]
    have hv' := (validStatusesIncludes_iff status).1 hv
    rcases hv' with h | h <;> subst h <;> rw [Filter.matches_str] <;> simp
  · have hf : validStatusesIncludes status = false := by simpa using hv
    rw [parseStatusFilter_invalid status hf]
    rw [validStatusesIncludes_iff] at hv
    simp [Filter.matches, hv]

theorem Task.find_sorted (f : Filter) (db : Db) :
    (Task.find f db).Pairwise (fun a b => b.createdAt ≤ a.createdAt) := by
  haveI : IsTotal Task (fun a b => b.createdAt ≤ a.createdAt) :=
    ⟨fun a b => Nat.le_total b.createdAt a.createdAt⟩
  haveI : IsTrans Task (fun a b => b.createdAt ≤ a.createdAt) :=
    ⟨fun _ _ _ hab hbc => Nat.le_trans hbc hab⟩
  exact List.sorted_insertionSort _ _

theorem Task.find_perm (f : Filter) (db : Db) :
    (Task.find f db).Perm (db.docs.filter f.matches) :=
  List.perm_insertionSort _ _

/-- C5: the list handler queries with a filter on `status` exactly when the
query value is the string `Pending` or `Completed`, and then answers 200 with
exactly the documents whose status is that value; for every other value, and
for none, it queries with the empty filter, answers 200 with all documents, and
its whole result is that of a request without `status`. -/
theorem C5_status_filter (status : JsVal) (db : Db) :
    ∃ f ts,
      routerGet status db = ⟨.response 200 (.tasks ts), db, [.find f]⟩ ∧
      (routerGet status db).outcome.code? = some 200 ∧
      f = parseStatusFilter status ∧
      ts.Perm (db.docs.filter f.matches) ∧
      (f.status.isDefined = true ↔
        (status = .str "Pending" ∨ status = .str "Completed")) ∧
      ((status = .str "Pending" ∨ status = .str "Completed") →
        f = ⟨status⟩ ∧
        (∀ t, f.matches t = true ↔ t.status = status) ∧
        (∀ t, t ∈ ts ↔ t ∈ db.docs ∧ t.status = status)) ∧
      (¬ (status = .str "Pending" ∨ status = .str "Completed") →
        f = ⟨.undefined⟩ ∧
        (∀ t, f.matches t = true) ∧
        (∀ t, t ∈ ts ↔ t ∈ db.docs) ∧
        routerGet status db = routerGet .undefined db) := by
  refine ⟨parseStatusFilter status, Task.find (parseStatusFilter status) db, rfl, rfl, rfl,
    Task.find_perm _ _, ?_, ?_, ?_⟩
  · constructor
    · intro h
      by_contra hn
      have hf : validStatusesIncludes status = false := by
        rw [← Bool.not_eq_true, validStatusesIncludes_iff]
        exact hn
      rw [parseStatusFilter_invalid status hf] at h
      simp [JsVal.isDefined] at h
    · intro h
      rw [parseStatusFilter_valid status ((validStatusesIncludes_iff status).2 h)]
      rcases h with h | h <;> rw [h] <;> rfl
  · intro h
    have hmatch : ∀ t, (parseStatusFilter status).matches t = true ↔ t.status = status := by
      intro t
      rw [Filter.matches_parseStatusFilter]
      exact ⟨fun hm => hm h, fun hm _ => hm⟩
    refine ⟨parseStatusFilter_valid status ((validStatusesIncludes_iff status).2 h), hmatch, ?_⟩
    intro t
    rw [(Task.find_perm _ _).mem_iff, List.mem_filter, hmatch]
  · intro hn
    have hf : validStatusesIncludes status = false := by
      rw [← Bool.not_eq_true, validStatusesIncludes_iff]
      exact hn
    have hp := parseStatusFilter_invalid status hf
    have hmatch : ∀ t, (parseStatusFilter status).matches t = true := by
      intro t
      rw [Filter.matches_parseStatusFilter]
      exact fun h => absurd h hn
    refine ⟨hp, hmatch, ?_, ?_⟩
    · intro t
      rw [(Task.find_perm _ _).mem_iff, List.mem_filter, hmatch]
      simp
    · have hu : parseStatusFilter .undefined = ⟨.undefined⟩ := rfl
      simp only [routerGet, hp, hu]

theorem C5_status_filter_witness :
    routerGet (.str "Completed")
        ⟨[⟨0, .str "a", .undefined, .str "Pending", 3, 0⟩,
          ⟨1, .str "b", .undefined, .str "Completed", 4, 0⟩], 2⟩ =
      ⟨.response 200 (.tasks [⟨1, .str "b", .undefined, .str "Completed", 4, 0⟩]),
        ⟨[⟨0, .str "a", .undefined, .str "Pending", 3, 0⟩,
          ⟨1, .str "b", .undefined, .str "Completed", 4, 0⟩], 2⟩,
        [.find ⟨.str "Completed"⟩]⟩ ∧
    (∃ f ts, routerGet (.str "Completed")
        ⟨[⟨0, .str "a", .undefined, .str "Pending", 3, 0⟩,
          ⟨1, .str "b", .undefined, .str "Completed", 4, 0⟩], 2⟩ =
        ⟨.response 200 (.tasks ts),
          ⟨[⟨0, .str "a", .undefined, .str "Pending", 3, 0⟩,
            ⟨1, .str "b", .undefined, .str "Completed", 4, 0⟩], 2⟩, [.find f]⟩ ∧
      f = ⟨.str "Completed"⟩ ∧
      ∀ t, t ∈ ts ↔
        t ∈ [(⟨0, .str "a", .undefined, .str "Pending", 3, 0⟩ : Task),
          ⟨1, .str "b", .undefined, .str "Completed", 4, 0⟩] ∧
        t.status = .str "Completed") ∧
    (∃ f ts, routerGet (.str "pending")
        ⟨[⟨0, .str "a", .undefined, .str "Pending", 3, 0⟩,
          ⟨1, .str "b", .undefined, .str "Completed", 4, 0⟩], 2⟩ =
        ⟨.response 200 (.tasks ts),
          ⟨[⟨0, .str "a", .undefined, .str "Pending", 3, 0⟩,
            ⟨1, .str "b", .undefined, .str "Completed", 4, 0⟩], 2⟩, [.find f]⟩ ∧
      f = ⟨.undefined⟩ ∧
      routerGet (.str "pending")
          ⟨[⟨0, .str "a", .undefined, .str "Pending", 3, 0⟩,
            ⟨1, .str "b", .undefined, .str "Completed", 4, 0⟩], 2⟩ =
        routerGet .undefined
          ⟨[⟨0, .str "a", .undefined, .str "Pending", 3, 0⟩,
            ⟨1, .str "b", .undefined, .str "Completed", 4, 0⟩], 2⟩) :=
  ⟨rfl,
    match C5_status_filter (.str "Completed")
      ⟨[⟨0, .str "a", .undefined, .str "Pending", 3, 0⟩,
        ⟨1, .str "b", .undefined, .str "Completed", 4, 0⟩], 2⟩ with
    | ⟨f, ts, hres, _, _, _, _, hvalid, _⟩ =>
      ⟨f, ts, hres, (hvalid (Or.inr rfl)).1, (hvalid (Or.inr rfl)).2.2⟩,
    match C5_status_filter (.str "pending")
      ⟨[⟨0, .str "a", .undefined, .str "Pending", 3, 0⟩,
        ⟨1, .str "b", .undefined, .str "Completed", 4, 0⟩], 2⟩ with
    | ⟨f, ts, hres, _, _, _, _, _, hinvalid⟩ =>
      ⟨f, ts, hres, (hinvalid (by simp)).1, (hinvalid (by simp)).2.2.2⟩⟩

/-- C6: for every collection and every query value the list handler answers
200 with a list that is a rearrangement of exactly the documents matching the
filter (all documents unless the value is `Pending` or `Completed`, else those
whose status is that value), in which every result has a creation time greater
than or equal to that of the result after it, and indeed of every later
result; three documents inserted with creation times t1 < t2 < t3 are listed
in the order t3, t2, t1. -/
theorem C6_list_newest_first :
    (∀ (status : JsVal) (db : Db), ∃ ts,
      routerGet status db =
        ⟨.response 200 (.tasks ts), db, [.find (parseStatusFilter status)]⟩ ∧
      ts.Perm (db.docs.filter (parseStatusFilter status).matches) ∧
      (∀ t, t ∈ ts ↔ t ∈ db.docs ∧
        ((status = .str "Pending" ∨ status = .str "Completed") → t.status = status)) ∧
      ts.Chain' (fun a b => b.createdAt ≤ a.createdAt) ∧
      ts.Pairwise (fun a b => b.createdAt ≤ a.createdAt)) ∧
    (∀ (a b c : Task) (n : Nat), a.createdAt < b.createdAt → b.createdAt < c.createdAt →
      routerGet .undefined ⟨[a, b, c], n⟩ =
        ⟨.response 200 (.tasks [c, b, a]), ⟨[a, b, c], n⟩, [.find ⟨.undefined⟩]⟩) := by
  constructor
  · intro status db
    refine ⟨Task.find (parseStatusFilter status) db, rfl, Task.find_perm _ _, ?_, ?_,
      Task.find_sorted _ _⟩
    · intro t
      rw [(Task.find_perm _ _).mem_iff, List.mem_filter, Filter.matches_parseStatusFilter]
    · exact List.Pairwise.chain' (Task.find_sorted _ _)
  · intro a b c n hab hbc
    have h1 : ¬ b.createdAt ≤ a.createdAt := by omega
    have h2 : ¬ c.createdAt ≤ b.createdAt := by omega
    have h3 : ¬ c.createdAt ≤ a.createdAt := by omega
    have hfind : Task.find ⟨.undefined⟩ ⟨[a, b, c], n⟩ = [c, b, a] := by
      simp [Task.find, Filter.matches, List.insertionSort, List.orderedInsert, h1, h2, h3]
    simp only [routerGet]
    rw [show parseStatusFilter .undefined = ⟨.undefined⟩ from rfl, hfind]

theorem C6_list_newest_first_witness :
    routerGet .undefined
        ⟨[⟨0, .str "a", .undefined, .str "Pending", 1, 0⟩,
          ⟨1, .str "b", .undefined, .str "Completed", 2, 0⟩,
          ⟨2, .str "c", .undefined, .str "Pending", 3, 0⟩], 3⟩ =
      ⟨.response 200 (.tasks
        [⟨2, .str "c", .undefined, .str "Pending", 3, 0⟩,
          ⟨1, .str "b", .undefined, .str "Completed", 2, 0⟩,
          ⟨0, .str "a", .undefined, .str "Pending", 1, 0⟩]),
        ⟨[⟨0, .str "a", .undefined, .str "Pending", 1, 0⟩,
          ⟨1, .str "b", .undefined, .str "Completed", 2, 0⟩,
          ⟨2, .str "c", .undefined, .str "Pending", 3, 0⟩], 3⟩,
        [.find ⟨.undefined⟩]⟩ :=
  C6_list_newest_first.2 ⟨0, .str "a", .undefined, .str "Pending", 1, 0⟩
    ⟨1, .str "b", .undefined, .str "Completed", 2, 0⟩
    ⟨2, .str "c", .undefined, .str "Pending", 3, 0⟩ 3 (by decide) (by decide)

/-! ## What the update handler hands to the model layer -/

theorem buildUpdates_checked (body : Body) (u : Updates)
    (hguard : ¬ (body.status.truthy && !validStatusesIncludes body.status) = true)
    (h : buildUpdates body = .updates u) : u.Checked := by
  have hst : ∀ s, (if body.status.truthy = true then some body.status else none) = s →
      (s = none ∨ s = some (.str "Pending") ∨ s = some (.str "Completed")) := by
    intro s hs
    by_cases htr : body.status.truthy = true
    · have hinc : validStatusesIncludes body.status = true := by
        by_contra hn
        apply hguard
        simp [htr, hn]
      rw [if_pos htr] at hs
      rcases (validStatusesIncludes_iff _).1 hinc with h | h
      · right; left; rw [← hs, h]
      · right; right; rw [← hs, h]
    · rw [if_neg htr] at hs
      exact Or.inl hs.symm
  unfold buildUpdates at h
  by_cases ht : body.title.isDefined = true
  · rw [if_pos ht] at h
    cases htitle : body.title with
    | str s0 =>
      rw [htitle] at h
      simp only [JsVal.callTrim] at h
      split at h
      · cases h
      · rename_i hne
        injection h with h
        subst h
        refine ⟨Or.inr ⟨jsTrim s0, rfl, ?_, jsTrim_idem s0⟩, hst _ rfl⟩
        simpa [JsVal.truthy] using hne
    | undefined => rw [htitle] at ht; simp [JsVal.isDefined] at ht
    | null => rw [htitle] at h; simp [JsVal.callTrim] at h
    | bool b => rw [htitle] at h; simp [JsVal.callTrim] at h
    | num n => rw [htitle] at h; simp [JsVal.callTrim] at h
    | arr l => rw [htitle] at h; simp [JsVal.callTrim] at h
    | obj l => rw [htitle] at h; simp [JsVal.callTrim] at h
  · rw [if_neg ht] at h
    injection h with h
    subst h
    exact ⟨Or.inl rfl, hst _ rfl⟩

theorem castUpdate_title_checked (drv : Driver) (u : Updates) (h : u.Checked) :
    TaskSchema.title.castUpdate u.title = some u.title ∧
    TaskSchema.title.validateUpdate drv u.title = true := by
  rcases h.1 with h | ⟨t, h, hne, htrim⟩
  · rw [h]; exact ⟨rfl, rfl⟩
  · rw [h]
    simp [StringPath.castUpdate, StringPath.applySetters, castString, TaskSchema, htrim,
      StringPath.validateUpdate, StringPath.validate, hne]

theorem castUpdate_status_checked (drv : Driver) (u : Updates) (h : u.Checked) :
    TaskSchema.status.castUpdate u.status = some u.status ∧
    TaskSchema.status.validateUpdate drv u.status = true := by
  rcases h.2 with h | h | h <;> rw [h] <;>
    simp [StringPath.castUpdate, StringPath.applySetters, castString, TaskSchema,
      StringPath.validateUpdate, StringPath.validate]

theorem validateUpdate_description (drv : Driver) (d : Option JsVal) :
    TaskSchema.description.validateUpdate drv d = true := by
  cases d <;> simp [StringPath.validateUpdate, StringPath.validate, TaskSchema]

/-- The model call on a handler-built update map: apart from the cast of the
identifier and of the description, it is a lookup followed by a replacement. -/
theorem findByIdAndUpdate_checked (drv : Driver) (id : String) (u : Updates) (db : Db)
    (h : u.Checked) :
    Task.findByIdAndUpdate drv id u db =
      match drv.castObjectId id with
      | none => .error .castError
      | some oid =>
        match TaskSchema.description.castUpdate u.description with
        | none => .error .castError
        | some d =>
          match db.docs.find? (fun x => x._id == oid) with
          | none => .ok (none, db)
          | some old =>
            .ok (some (old.applyUpdates ⟨u.title, d, u.status⟩),
              ⟨replaceById oid (old.applyUpdates ⟨u.title, d, u.status⟩) db.docs, db.nextId⟩) := by
  unfold Task.findByIdAndUpdate
  cases drv.castObjectId id with
  | none => rfl
  | some oid =>
    simp only [(castUpdate_title_checked drv u h).1, (castUpdate_status_checked drv u h).1]
    cases hd : TaskSchema.description.castUpdate u.description with
    | none => rfl
    | some d =>
      simp only [(castUpdate_title_checked drv u h).2, (castUpdate_status_checked drv u h).2,
        validateUpdate_description, Bool.and_self, if_true]

/-! ## Deleted identifiers -/

theorem removeById_no_id (oid : Nat) (docs : List Task)
    (hnd : (docs.map Task._id).Nodup) :
    ∀ x ∈ removeById oid docs, (docs.find? (fun t => t._id == oid)).isSome = true →
      x._id ≠ oid := by
  induction docs with
  | nil => intro x hx; simp [removeById] at hx
  | cons t ts ih =>
    intro x hx hfound
    simp only [List.map_cons, List.nodup_cons] at hnd
    by_cases ht : t._id = oid
    · simp only [removeById, ht, beq_self_eq_true, if_true] at hx
      intro hxe
      apply hnd.1
      rw [ht, ← hxe]
      exact List.mem_map_of_mem _ hx
    · have hbeq : (t._id == oid) = false := by simpa using ht
      simp only [removeById, hbeq, Bool.false_eq_true, if_false, List.mem_cons] at hx
      rcases hx with hx | hx
      · rw [hx]; exact ht
      · apply ih hnd.2 x hx
        simpa [List.find?, hbeq] using hfound

theorem find?_eq_none_of_no_id (oid : Nat) (docs : List Task)
    (h : ∀ x ∈ docs, x._id ≠ oid) : docs.find? (fun t => t._id == oid) = none := by
  rw [List.find?_eq_none]
  intro x hx
  simpa using h x hx

theorem castUpdate_description_valid (body : Body) (u : Updates)
    (hdesc : (castString body.description).isSome = true)
    (hkeys : ∀ d, u.description = some d → d = body.description) :
    ∃ d, TaskSchema.description.castUpdate u.description = some d := by
  cases hu : u.description with
  | none => exact ⟨none, rfl⟩
  | some d =>
    have hd := hkeys d hu
    rw [hd]
    simp only [StringPath.castUpdate, StringPath.applySetters]
    cases hc : castString body.description with
    | none => rw [hc] at hdesc; simp at hdesc
    | some w => cases w <;> simp

theorem buildUpdates_valid (body : Body) (hvalid : validUpdatePayload body = true) :
    ¬ (body.status.truthy && !validStatusesIncludes body.status) = true ∧
    ∃ u, buildUpdates body = .updates u := by
  simp only [validUpdatePayload, Bool.and_eq_true, Bool.or_eq_true, Bool.not_eq_true'] at hvalid
  obtain ⟨⟨htitle, -⟩, hstatus⟩ := hvalid
  constructor
  · rcases hstatus with h | h <;> simp [h]
  · cases htv : body.title with
    | undefined => simp [buildUpdates, htv, JsVal.isDefined]
    | str s =>
      rw [htv] at htitle
      have hne : jsTrim s ≠ "" := by simpa using htitle
      simp [buildUpdates, htv, JsVal.isDefined, JsVal.callTrim, JsVal.truthy, hne]
    | null => rw [htv] at htitle; simp at htitle
    | bool b => rw [htv] at htitle; simp at htitle
    | num n => rw [htv] at htitle; simp at htitle
    | arr l => rw [htv] at htitle; simp at htitle
    | obj l => rw [htv] at htitle; simp at htitle

theorem routerPut_not_found (drv : Driver) (id : String) (body : Body) (db : Db) (oid : Nat)
    (hid : drv.castObjectId id = some oid)
    (hnone : db.docs.find? (fun t => t._id == oid) = none)
    (hvalid : validUpdatePayload body = true) :
    ∃ u, routerPut drv id body db =
      ⟨.response 404 (.message "Task not found"), db, [.findByIdAndUpdate id u]⟩ := by
  obtain ⟨hguard, u, hb⟩ := buildUpdates_valid body hvalid
  have hchecked := buildUpdates_checked body u hguard hb
  have hdesc : (castString body.description).isSome = true := by
    simp only [validUpdatePayload, Bool.and_eq_true] at hvalid
    exact hvalid.1.2
  obtain ⟨d, hd⟩ := castUpdate_description_valid body u hdesc
    (fun d hd => ((buildUpdates_keys body u hb).2.1 d hd).2)
  refine ⟨u, ?_⟩
  unfold routerPut
  rw [if_neg hguard, hb]
  simp only [findByIdAndUpdate_checked drv id u db hchecked, hid, hd, hnone]

/-- C9: in a collection whose documents have distinct identifiers, once a
delete of an identifier has been answered 200, a second delete of the same
identifier is answered 404 `Task not found`, and so is an update of it with any
valid payload; neither changes the collection. -/
theorem C9_deleted_id_not_found (drv : Driver) (id : String) (db : Db)
    (hwf : (db.docs.map Task._id).Nodup)
    (hdel : (routerDelete drv id db).outcome.code? = some 200) :
    routerDelete drv id (routerDelete drv id db).db =
      ⟨.response 404 (.message "Task not found"), (routerDelete drv id db).db,
        [.findByIdAndDelete id]⟩ ∧
    ∀ body, validUpdatePayload body = true →
      ∃ u, routerPut drv id body (routerDelete drv id db).db =
        ⟨.response 404 (.message "Task not found"), (routerDelete drv id db).db,
          [.findByIdAndUpdate id u]⟩ := by
  cases hid : drv.castObjectId id with
  | none =>
    simp [routerDelete, Task.findByIdAndDelete, hid, Outcome.code?] at hdel
  | some oid =>
    cases hfind : db.docs.find? (fun x => x._id == oid) with
    | none =>
      simp [routerDelete, Task.findByIdAndDelete, hid, hfind, Outcome.code?] at hdel
    | some old =>
      have hdb : (routerDelete drv id db).db = ⟨removeById oid db.docs, db.nextId⟩ := by
        simp [routerDelete, Task.findByIdAndDelete, hid, hfind]
      have hnone : (Db.mk (removeById oid db.docs) db.nextId).docs.find?
          (fun x => x._id == oid) = none := by
        apply find?_eq_none_of_no_id
        intro x hx
        exact removeById_no_id oid db.docs hwf x hx (by simp [hfind])
      rw [hdb]
      constructor
      · simp only [routerDelete, Task.findByIdAndDelete, hid, hnone]
      · intro body hvalid
        exact routerPut_not_found drv id body _ oid hid hnone hvalid

theorem C9_deleted_id_not_found_witness :
    routerDelete hexDriver "00000000000000000000000a"
        (routerDelete hexDriver "00000000000000000000000a"
          ⟨[⟨10, .str "Buy milk", .undefined, .str "Pending", 5, 0⟩], 11⟩).db =
      ⟨.response 404 (.message "Task not found"),
        (routerDelete hexDriver "00000000000000000000000a"
          ⟨[⟨10, .str "Buy milk", .undefined, .str "Pending", 5, 0⟩], 11⟩).db,
        [.findByIdAndDelete "00000000000000000000000a"]⟩ ∧
    ∃ u, routerPut hexDriver "00000000000000000000000a"
        ⟨.undefined, .undefined, .str "Completed"⟩
        (routerDelete hexDriver "00000000000000000000000a"
          ⟨[⟨10, .str "Buy milk", .undefined, .str "Pending", 5, 0⟩], 11⟩).db =
      ⟨.response 404 (.message "Task not found"),
        (routerDelete hexDriver "00000000000000000000000a"
          ⟨[⟨10, .str "Buy milk", .undefined, .str "Pending", 5, 0⟩], 11⟩).db,
        [.findByIdAndUpdate "00000000000000000000000a" u]⟩ :=
  ⟨(C9_deleted_id_not_found hexDriver "00000000000000000000000a"
      ⟨[⟨10, .str "Buy milk", .undefined, .str "Pending", 5, 0⟩], 11⟩
      (by decide) (by decide)).1,
    (C9_deleted_id_not_found hexDriver "00000000000000000000000a"
      ⟨[⟨10, .str "Buy milk", .undefined, .str "Pending", 5, 0⟩], 11⟩
      (by decide) (by decide)).2 ⟨.undefined, .undefined, .str "Completed"⟩ (by decide)⟩

/-! ## The create handler, case by case -/

theorem jsTrim_ne_empty (s : String) (h : jsTrim s ≠ "") : s ≠ "" := by
  intro hs
  apply h
  rw [hs]
  rfl

/-- Value stored for a status the create handler lets through. -/
theorem construct_status_cases (drv : Driver) (status : JsVal)
    (hguard : ¬ (status.truthy && !validStatusesIncludes status) = true) :
    (∃ st, TaskSchema.status.construct status = some st ∧
      TaskSchema.status.validate drv st = true ∧
      (status = .undefined ∧ st = .str "Pending" ∨
        (status = .str "Pending" ∨ status = .str "Completed") ∧ st = status ∨
        status = .null ∧ drv.enumAllowsNull = true ∧ st = .null)) ∨
    (∀ st, TaskSchema.status.construct status = some st →
      TaskSchema.status.validate drv st = false) := by
  cases status with
  | undefined =>
    left
    exact ⟨.str "Pending", rfl, by simp [StringPath.validate, TaskSchema], Or.inl ⟨rfl, rfl⟩⟩
  | null =>
    cases hn : drv.enumAllowsNull with
    | true =>
      left
      exact ⟨.null, rfl, by simp [StringPath.validate, TaskSchema, hn],
        Or.inr (Or.inr ⟨rfl, rfl, rfl⟩)⟩
    | false =>
      right
      intro st hst
      simp [StringPath.construct, StringPath.applySetters, castString] at hst
      subst hst
      simp [StringPath.validate, TaskSchema, hn]
  | bool b =>
    right
    cases b with
    | true => simp [JsVal.truthy, validStatusesIncludes] at hguard
    | false =>
      intro st hst
      simp [StringPath.construct, StringPath.applySetters, castString, TaskSchema] at hst
      subst hst
      simp [StringPath.validate, TaskSchema]
  | num r =>
    right
    by_cases hn : r = "0"
    · subst hn
      intro st hst
      simp [StringPath.construct, StringPath.applySetters, castString, TaskSchema] at hst
      subst hst
      simp [StringPath.validate, TaskSchema]
    · simp [JsVal.truthy, validStatusesIncludes, hn] at hguard
  | str s =>
    by_cases hs : s = ""
    · right
      subst hs
      intro st hst
      simp [StringPath.construct, StringPath.applySetters, castString, TaskSchema] at hst
      subst hst
      simp [StringPath.validate, TaskSchema]
    · left
      have hinc : validStatusesIncludes (.str s) = true := by
        by_contra hc
        apply hguard
        simp [JsVal.truthy, hs, hc]
      have hs' : s = "Pending" ∨ s = "Completed" := by
        simpa [validStatusesIncludes, VALID_STATUSES] using hinc
      refine ⟨.str s, ?_, ?_, Or.inr (Or.inl ⟨?_, rfl⟩)⟩
      · simp [StringPath.construct, StringPath.applySetters, castString, TaskSchema]
      · simp [StringPath.validate, TaskSchema, hs']
      · rcases hs' with h | h <;> simp [h]
  | arr l => simp [JsVal.truthy, validStatusesIncludes] at hguard
  | obj l => simp [JsVal.truthy, validStatusesIncludes] at hguard

theorem construct_title_trimmed (drv : Driver) (s : String) (h : jsTrim s ≠ "") :
    TaskSchema.title.construct (.str (jsTrim s)) = some (.str (jsTrim s)) ∧
    TaskSchema.title.validate drv (.str (jsTrim s)) = true := by
  simp [StringPath.construct, StringPath.applySetters, castString, TaskSchema, jsTrim_idem,
    StringPath.validate, h]

theorem validate_description (drv : Driver) (d : JsVal) :
    TaskSchema.description.validate drv d = true := by
  simp [StringPath.validate, TaskSchema]

/-- The create handler either leaves the collection as it is and does not
answer 201, or it received a string title that is not blank, a description the
schema can cast and a status it lets through, and appends exactly one
document. -/
theorem routerPost_cases (drv : Driver) (now : Nat) (body : Body) (db : Db) :
    ((routerPost drv now body db).db = db ∧
      (routerPost drv now body db).outcome.code? ≠ some 201) ∨
    (∃ s d st, body.title = .str s ∧ jsTrim s ≠ "" ∧
      TaskSchema.description.construct body.description = some d ∧
      (body.status = .undefined ∧ st = .str "Pending" ∨
        (body.status = .str "Pending" ∨ body.status = .str "Completed") ∧ st = body.status ∨
        body.status = .null ∧ drv.enumAllowsNull = true ∧ st = .null) ∧
      routerPost drv now body db =
        ⟨.response 201 (.task ⟨db.nextId, .str (jsTrim s), d, st, now, 0⟩),
          ⟨db.docs ++ [⟨db.nextId, .str (jsTrim s), d, st, now, 0⟩], db.nextId + 1⟩,
          [.create ⟨.str (jsTrim s), body.description, body.status⟩]⟩) := by
  unfold routerPost
  by_cases htr : body.title.truthy = true
  swap
  · left; simp [htr, Outcome.code?]
  simp only [htr, Bool.not_true, Bool.false_eq_true, if_false]
  cases htitle : body.title with
  | str s =>
    simp only [JsVal.callTrim]
    by_cases hne : (JsVal.str (jsTrim s)).truthy = true
    swap
    · left; simp [hne, Outcome.code?]
    simp only [hne, Bool.not_true, Bool.false_eq_true, if_false]
    have hne' : jsTrim s ≠ "" := (str_truthy_iff _).1 hne
    by_cases hguard : (body.status.truthy && !validStatusesIncludes body.status) = true
    · left; simp [hguard, Outcome.code?]
    rw [if_neg hguard]
    have ht := construct_title_trimmed drv s hne'
    cases hd : TaskSchema.description.construct body.description with
    | none =>
      left
      simp only [Task.create, ht.1, hd]
      cases TaskSchema.status.construct body.status <;> simp [Outcome.code?]
    | some d =>
      rcases construct_status_cases drv body.status hguard with ⟨st, hst, hv, hcases⟩ | hbad
      · right
        refine ⟨s, d, st, rfl, hne', rfl, hcases, ?_⟩
        simp [Task.create, ht.1, ht.2, hd, hst, hv, validate_description]
      · left
        cases hst : TaskSchema.status.construct body.status with
        | none => simp [Task.create, ht.1, hd, hst, Outcome.code?]
        | some st =>
          simp [Task.create, ht.1, ht.2, hd, hst, hbad st hst, Outcome.code?]
  | undefined => left; simp [JsVal.callTrim, Outcome.code?]
  | null => left; simp [JsVal.callTrim, Outcome.code?]
  | bool b => left; simp [JsVal.callTrim, Outcome.code?]
  | num n => left; simp [JsVal.callTrim, Outcome.code?]
  | arr l => left; simp [JsVal.callTrim, Outcome.code?]
  | obj l => left; simp [JsVal.callTrim, Outcome.code?]

/-! ## Status validation on the write paths -/

/-- C1 (as stated, refuted): the empty string is a status outside the enum, yet
an update carrying it is answered 200 with an empty update map; and a create
whose status is outside the enum but whose title is the number 5 is not
answered at all, since `title.trim` is not a function.  Hence it is false that
every supplied status outside the enum makes both handlers answer 400. -/
theorem C1_falsy_status_not_rejected :
    validStatusesIncludes (.str "") = false ∧
    routerPut hexDriver "000000000000000000000000" ⟨.undefined, .undefined, .str ""⟩
        ⟨[⟨0, .str "Buy milk", .undefined, .str "Pending", 10, 0⟩], 1⟩ =
      ⟨.response 200 (.task ⟨0, .str "Buy milk", .undefined, .str "Pending", 10, 0⟩),
        ⟨[⟨0, .str "Buy milk", .undefined, .str "Pending", 10, 0⟩], 1⟩,
        [.findByIdAndUpdate "000000000000000000000000" ⟨none, none, none⟩]⟩ ∧
    validStatusesIncludes (.str "Urgent") = false ∧
    routerPost hexDriver 10 ⟨.num "5", .undefined, .str "Urgent"⟩ ⟨[], 0⟩ =
      ⟨.uncaught, ⟨[], 0⟩, []⟩ ∧
    ¬ (∀ (drv : Driver) (now : Nat) (id : String) (body : Body) (db : Db),
        body.status.isDefined = true → validStatusesIncludes body.status = false →
        ((routerPut drv id body db).outcome.code? = some 400 ∧
          (routerPut drv id body db).db = db) ∧
        ((routerPost drv now body db).outcome.code? = some 400 ∧
          (routerPost drv now body db).db = db)) := by
  refine ⟨rfl, rfl, rfl, rfl, ?_⟩
  intro h
  have h1 := (h hexDriver 10 "000000000000000000000000" ⟨.undefined, .undefined, .str ""⟩
    ⟨[⟨0, .str "Buy milk", .undefined, .str "Pending", 10, 0⟩], 1⟩ rfl rfl).1.1
  exact absurd h1 (by decide)

/-- C1 (amended): for every truthy status value outside the enum, the update
handler answers 400 `Invalid status value`, leaves the collection unchanged and
makes no model call; the create handler answers 400, leaves the collection
unchanged and makes no model call whenever the title is falsy or a string. -/
theorem C1_truthy_invalid_status_rejected (drv : Driver) (now : Nat) (id : String)
    (body : Body) (db : Db)
    (htruthy : body.status.truthy = true)
    (hout : validStatusesIncludes body.status = false) :
    routerPut drv id body db =
      ⟨.response 400 (.message "Invalid status value"), db, []⟩ ∧
    ((body.title.truthy = false ∨ ∃ s, body.title = .str s) →
      ∃ m, routerPost drv now body db = ⟨.response 400 (.message m), db, []⟩) := by
  constructor
  · simp [routerPut, htruthy, hout]
  · intro htitle
    unfold routerPost
    by_cases htr : body.title.truthy = true
    · rcases htitle with h | ⟨s, hs⟩
      · rw [h] at htr; cases htr
      · rw [hs] at htr
        simp only [htr, Bool.not_true, Bool.false_eq_true, if_false, hs, JsVal.callTrim]
        by_cases hne : (JsVal.str (jsTrim s)).truthy = true
        · exact ⟨"Invalid status value", by simp [hne, htruthy, hout]⟩
        · exact ⟨"Title is required", by simp [hne]⟩
    · exact ⟨"Title is required", by simp [htr]⟩

theorem C1_truthy_invalid_status_rejected_witness :
    routerPut hexDriver "000000000000000000000000" ⟨.str "Buy milk", .undefined, .str "Done"⟩
        ⟨[⟨0, .str "Buy milk", .undefined, .str "Pending", 10, 0⟩], 1⟩ =
      ⟨.response 400 (.message "Invalid status value"),
        ⟨[⟨0, .str "Buy milk", .undefined, .str "Pending", 10, 0⟩], 1⟩, []⟩ ∧
    ∃ m, routerPost hexDriver 11 ⟨.str "Buy milk", .undefined, .str "Done"⟩
        ⟨[⟨0, .str "Buy milk", .undefined, .str "Pending", 10, 0⟩], 1⟩ =
      ⟨.response 400 (.message m),
        ⟨[⟨0, .str "Buy milk", .undefined, .str "Pending", 10, 0⟩], 1⟩, []⟩ :=
  ⟨(C1_truthy_invalid_status_rejected hexDriver 11 "000000000000000000000000"
      ⟨.str "Buy milk", .undefined, .str "Done"⟩
      ⟨[⟨0, .str "Buy milk", .undefined, .str "Pending", 10, 0⟩], 1⟩ rfl rfl).1,
    (C1_truthy_invalid_status_rejected hexDriver 11 "000000000000000000000000"
      ⟨.str "Buy milk", .undefined, .str "Done"⟩
      ⟨[⟨0, .str "Buy milk", .undefined, .str "Pending", 10, 0⟩], 1⟩ rfl rfl).2
      (Or.inr ⟨"Buy milk", rfl⟩)⟩

/-! ## Successful creation -/

theorem applySetters_isSome (p : StringPath) (v : JsVal) (h : (castString v).isSome = true) :
    ∃ w, p.applySetters v = some w := by
  unfold StringPath.applySetters
  cases hc : castString v with
  | none => rw [hc] at h; simp at h
  | some w => cases w <;> simp

/-- C7 (as stated, refuted): a create payload with the title `Buy milk`, no
status and an object as description is answered 500, not 201, and nothing is
stored: the schema cannot cast the description to a string.  Hence it is false
that every payload with a string title that is not blank and a status absent
or in the enum is answered 201. -/
theorem C7_uncastable_description_fails :
    routerPost hexDriver 10 ⟨.str "Buy milk", .obj [("text", .str "2 litres")], .undefined⟩
        ⟨[], 0⟩ =
      ⟨.response 500 (.message "Failed to create task"), ⟨[], 0⟩,
        [.create ⟨.str "Buy milk", .obj [("text", .str "2 litres")], .undefined⟩]⟩ ∧
    ¬ (∀ (drv : Driver) (now : Nat) (body : Body) (db : Db) (s : String),
        body.title = .str s → jsTrim s ≠ "" →
        (body.status = .undefined ∨ validStatusesIncludes body.status = true) →
        (routerPost drv now body db).outcome.code? = some 201) := by
  refine ⟨rfl, ?_⟩
  intro h
  have h1 := h hexDriver 10 ⟨.str "Buy milk", .obj [("text", .str "2 litres")], .undefined⟩
    ⟨[], 0⟩ "Buy milk" rfl (by decide) (Or.inl rfl)
  exact absurd h1 (by decide)

/-- C7 (amended): for every create payload with a string title that is not
blank, a status that is absent or in the enum, and a description that is absent
or that the schema can cast to a string, the create handler answers 201 with
the stored task, whose title is the trimmed input title and whose status is the
supplied status, or `Pending` when the status is absent. -/
theorem C7_create_succeeds (drv : Driver) (now : Nat) (body : Body) (db : Db) (s : String)
    (htitle : body.title = .str s) (hs : jsTrim s ≠ "")
    (hstatus : body.status = .undefined ∨ body.status = .str "Pending" ∨
      body.status = .str "Completed")
    (hdesc : (castString body.description).isSome = true) :
    ∃ task, routerPost drv now body db =
        ⟨.response 201 (.task task), ⟨db.docs ++ [task], db.nextId + 1⟩,
          [.create ⟨.str (jsTrim s), body.description, body.status⟩]⟩ ∧
      task.title = .str (jsTrim s) ∧
      task.status = (if body.status.isDefined then body.status else .str "Pending") ∧
      TaskSchema.description.construct body.description = some task.description ∧
      task._id = db.nextId ∧ task.createdAt = now := by
  have htr : (JsVal.str s).truthy = true := (str_truthy_iff s).2 (jsTrim_ne_empty s hs)
  have htr' : (JsVal.str (jsTrim s)).truthy = true := (str_truthy_iff _).2 hs
  have hguard : ¬ (body.status.truthy && !validStatusesIncludes body.status) = true := by
    rcases hstatus with h | h | h <;> rw [h] <;> decide
  have ht := construct_title_trimmed drv s hs
  obtain ⟨d, hd⟩ : ∃ d, TaskSchema.description.construct body.description = some d := by
    cases hb : body.description with
    | undefined => exact ⟨.undefined, rfl⟩
    | _ =>
      rw [hb] at hdesc
      obtain ⟨w, hw⟩ := applySetters_isSome TaskSchema.description _ hdesc
      exact ⟨w, by simpa [StringPath.construct] using hw⟩
  obtain ⟨st, hst, hv, hval⟩ : ∃ st, TaskSchema.status.construct body.status = some st ∧
      TaskSchema.status.validate drv st = true ∧
      st = (if body.status.isDefined then body.status else .str "Pending") := by
    rcases hstatus with h | h | h <;> rw [h]
    · exact ⟨.str "Pending", rfl, by simp [StringPath.validate, TaskSchema], rfl⟩
    · exact ⟨.str "Pending", rfl, by simp [StringPath.validate, TaskSchema], rfl⟩
    · exact ⟨.str "Completed", rfl, by simp [StringPath.validate, TaskSchema], rfl⟩
  refine ⟨⟨db.nextId, .str (jsTrim s), d, st, now, 0⟩, ?_, rfl, hval, hd, rfl, rfl⟩
  unfold routerPost
  rw [htitle]
  simp only [htr, JsVal.callTrim, htr', Bool.not_true, Bool.false_eq_true, if_false]
  rw [if_neg hguard]
  simp [Task.create, ht.1, ht.2, hd, hst, hv, validate_description]

theorem C7_create_succeeds_witness :
    ∃ task, routerPost hexDriver 10 ⟨.str "Buy milk", .undefined, .undefined⟩ ⟨[], 0⟩ =
        ⟨.response 201 (.task task), ⟨[] ++ [task], 0 + 1⟩,
          [.create ⟨.str (jsTrim "Buy milk"), .undefined, .undefined⟩]⟩ ∧
      task.title = .str (jsTrim "Buy milk") ∧
      task.status = (if JsVal.undefined.isDefined then .undefined else .str "Pending") ∧
      TaskSchema.description.construct .undefined = some task.description ∧
      task._id = 0 ∧ task.createdAt = 10 :=
  C7_create_succeeds hexDriver 10 ⟨.str "Buy milk", .undefined, .undefined⟩ ⟨[], 0⟩
    "Buy milk" rfl (by decide) (Or.inl rfl) rfl

/-- The scenario of the specification: creating `Buy milk` with no other key
stores it with the status `Pending` and no description. -/
theorem create_buy_milk :
    routerPost hexDriver 10 ⟨.str "Buy milk", .undefined, .undefined⟩ ⟨[], 0⟩ =
      ⟨.response 201 (.task ⟨0, .str "Buy milk", .undefined, .str "Pending", 10, 0⟩),
        ⟨[⟨0, .str "Buy milk", .undefined, .str "Pending", 10, 0⟩], 1⟩,
        [.create ⟨.str "Buy milk", .undefined, .undefined⟩]⟩ :=
  rfl

/-! ## Create, then list -/

/-- C4 (as stated, refuted): the payload with title `a` and description
`" b "` is accepted, and the list that follows holds a single task, whose
description is `"b"`: the description was trimmed, not stored as supplied.
The same task carries the version key `__v`, a third key the server adds next
to the identifier and `createdAt`.  Hence it is false that after every accepted
create the list holds a task whose description is the one of the payload. -/
theorem C4_description_is_trimmed :
    routerPost hexDriver 10 ⟨.str "a", .str " b ", .undefined⟩ ⟨[], 0⟩ =
      ⟨.response 201 (.task ⟨0, .str "a", .str "b", .str "Pending", 10, 0⟩),
        ⟨[⟨0, .str "a", .str "b", .str "Pending", 10, 0⟩], 1⟩,
        [.create ⟨.str "a", .str " b ", .undefined⟩]⟩ ∧
    routerGet .undefined
        (routerPost hexDriver 10 ⟨.str "a", .str " b ", .undefined⟩ ⟨[], 0⟩).db =
      ⟨.response 200 (.tasks [⟨0, .str "a", .str "b", .str "Pending", 10, 0⟩]),
        ⟨[⟨0, .str "a", .str "b", .str "Pending", 10, 0⟩], 1⟩, [.find ⟨.undefined⟩]⟩ ∧
    ¬ (∀ (drv : Driver) (now : Nat) (body : Body) (db : Db) (task : Task),
        (routerPost drv now body db).outcome = .response 201 (.task task) →
        ∃ ts, (routerGet .undefined (routerPost drv now body db).db).outcome =
            .response 200 (.tasks ts) ∧
          ∃ t ∈ ts, t.description = body.description) := by
  refine ⟨rfl, rfl, ?_⟩
  intro h
  obtain ⟨ts, hts, t, ht, hd⟩ := h hexDriver 10 ⟨.str "a", .str " b ", .undefined⟩ ⟨[], 0⟩
    ⟨0, .str "a", .str "b", .str "Pending", 10, 0⟩ rfl
  have hts' : ts = [⟨0, .str "a", .str "b", .str "Pending", 10, 0⟩] := by
    have : Outcome.response 200 (.tasks [⟨0, .str "a", .str "b", .str "Pending", 10, 0⟩]) =
        .response 200 (.tasks ts) := hts
    injection this with _ hb
    injection hb with hb
    exact hb.symm
  subst hts'
  simp only [List.mem_singleton] at ht
  subst ht
  simp at hd

/-- C4 (amended): whenever create answers 201 with a task, that task is
appended to the collection and the list with no filter that follows contains
it.  Every key of it is pinned: the title is the payload title trimmed, the
status is the payload status, or `Pending` when the status is absent, the
description is the payload description after the String cast and trim of the
schema (a string is stored trimmed, a number or boolean as its rendering
trimmed, `null` as `null`, an absent description stays absent), and the server
adds the identifier, the creation time and the version key `__v`, set to 0. -/
theorem C4_create_then_list (drv : Driver) (now : Nat) (body : Body) (db : Db) (task : Task)
    (h201 : (routerPost drv now body db).outcome = .response 201 (.task task)) :
    ∃ s d ts, body.title = .str s ∧
      TaskSchema.description.construct body.description = some d ∧
      task = ⟨db.nextId, .str (jsTrim s), d,
        if body.status.isDefined then body.status else .str "Pending", now, 0⟩ ∧
      (routerPost drv now body db).db = ⟨db.docs ++ [task], db.nextId + 1⟩ ∧
      routerGet .undefined (routerPost drv now body db).db =
        ⟨.response 200 (.tasks ts), (routerPost drv now body db).db, [.find ⟨.undefined⟩]⟩ ∧
      task ∈ ts ∧
      (body.description = .undefined → d = .undefined) ∧
      (body.description = .null → d = .null) ∧
      (∀ x, body.description = .str x → d = .str (jsTrim x)) ∧
      (∀ r, body.description = .num r → d = .str (jsTrim r)) ∧
      (∀ b, body.description = .bool b → d = .str (if b then "true" else "false")) := by
  rcases routerPost_cases drv now body db with ⟨-, hno⟩ | ⟨s, d, st, hs, -, hd, hst, hres⟩
  · exfalso
    apply hno
    rw [h201]
    rfl
  · rw [hres] at h201
    simp only [Outcome.response.injEq, ResBody.task.injEq, true_and] at h201
    have hstatus : st = (if body.status.isDefined then body.status else .str "Pending") := by
      rcases hst with ⟨h1, h2⟩ | ⟨h1, h2⟩ | ⟨h1, -, h2⟩
      · simp [h1, h2, JsVal.isDefined]
      · rcases h1 with h | h <;> simp [h2, h, JsVal.isDefined]
      · simp [h1, h2, JsVal.isDefined]
    have htask : task = ⟨db.nextId, .str (jsTrim s), d,
        if body.status.isDefined then body.status else .str "Pending", now, 0⟩ := by
      rw [← h201, hstatus]
    refine ⟨s, d, Task.find ⟨.undefined⟩ (routerPost drv now body db).db, hs, hd, htask, ?_,
      rfl, ?_, ?_, ?_, ?_, ?_, ?_⟩
    · rw [hres, ← h201]
    · rw [(Task.find_perm _ _).mem_iff, hres, ← h201]
      simp [Filter.matches]
    · intro hu
      rw [hu] at hd
      simp [StringPath.construct, TaskSchema] at hd
      exact hd.symm
    · intro hu
      rw [hu] at hd
      simp [StringPath.construct, StringPath.applySetters, castString] at hd
      exact hd.symm
    · intro x hx
      rw [hx] at hd
      simp [StringPath.construct, StringPath.applySetters, castString, TaskSchema] at hd
      exact hd.symm
    · intro r hr
      rw [hr] at hd
      simp [StringPath.construct, StringPath.applySetters, castString, TaskSchema] at hd
      exact hd.symm
    · intro b hb
      rw [hb] at hd
      cases b <;>
        simp [StringPath.construct, StringPath.applySetters, castString, TaskSchema] at hd <;>
        rw [← hd] <;> simp <;> decide

theorem C4_create_then_list_witness :
    (routerPost hexDriver 10 ⟨.str " a ", .str " b ", .undefined⟩ ⟨[], 0⟩).outcome =
      .response 201 (.task ⟨0, .str "a", .str "b", .str "Pending", 10, 0⟩) ∧
    ∃ s d ts, (Body.mk (.str " a ") (.str " b ") .undefined).title = .str s ∧
      (⟨0, .str "a", .str "b", .str "Pending", 10, 0⟩ : Task) =
        ⟨(Db.mk [] 0).nextId, .str (jsTrim s), d,
          if (Body.mk (.str " a ") (.str " b ") .undefined).status.isDefined
            then (Body.mk (.str " a ") (.str " b ") .undefined).status
            else .str "Pending", 10, 0⟩ ∧
      routerGet .undefined
          (routerPost hexDriver 10 ⟨.str " a ", .str " b ", .undefined⟩ ⟨[], 0⟩).db =
        ⟨.response 200 (.tasks ts),
          (routerPost hexDriver 10 ⟨.str " a ", .str " b ", .undefined⟩ ⟨[], 0⟩).db,
          [.find ⟨.undefined⟩]⟩ ∧
      (⟨0, .str "a", .str "b", .str "Pending", 10, 0⟩ : Task) ∈ ts :=
  ⟨rfl,
    match C4_create_then_list hexDriver 10 ⟨.str " a ", .str " b ", .undefined⟩ ⟨[], 0⟩
      ⟨0, .str "a", .str "b", .str "Pending", 10, 0⟩ rfl with
    | ⟨s, d, ts, hs, _, htask, _, hlist, hmem, _⟩ => ⟨s, d, ts, hs, htask, hlist, hmem⟩⟩

/-! ## Reachable collections -/

theorem mem_replaceById (oid : Nat) (new : Task) (docs : List Task) :
    ∀ x ∈ replaceById oid new docs, x = new ∨ x ∈ docs := by
  induction docs with
  | nil => intro x hx; simp [replaceById] at hx
  | cons t ts ih =>
    intro x hx
    by_cases ht : (t._id == oid) = true
    · simp only [replaceById, ht, if_true, List.mem_cons] at hx
      rcases hx with hx | hx
      · exact Or.inl hx
      · exact Or.inr (List.mem_cons_of_mem _ hx)
    · simp only [replaceById, ht, Bool.false_eq_true, if_false, List.mem_cons] at hx
      rcases hx with hx | hx
      · exact Or.inr (by rw [hx]; exact List.mem_cons_self _ _)
      · rcases ih x hx with h | h
        · exact Or.inl h
        · exact Or.inr (List.mem_cons_of_mem _ h)

theorem map_id_replaceById (oid : Nat) (new : Task) (docs : List Task) (hnew : new._id = oid) :
    (replaceById oid new docs).map Task._id = docs.map Task._id := by
  induction docs with
  | nil => rfl
  | cons t ts ih =>
    by_cases ht : (t._id == oid) = true
    · have : t._id = oid := by simpa using ht
      simp [replaceById, ht, hnew, this]
    · simp [replaceById, ht, ih]

theorem removeById_sublist (oid : Nat) (docs : List Task) :
    (removeById oid docs).Sublist docs := by
  induction docs with
  | nil => exact List.Sublist.refl _
  | cons t ts ih =>
    by_cases ht : (t._id == oid) = true
    · simp only [removeById, ht, if_true]
      exact List.sublist_cons_self _ _
    · simp only [removeById, ht, Bool.false_eq_true, if_false]
      exact ih.cons₂ _

/-- The update handler leaves the collection as it is or replaces one document
by itself with the keys of a checked update map set. -/
theorem routerPut_db (drv : Driver) (id : String) (body : Body) (db : Db) :
    (routerPut drv id body db).db = db ∨
    ∃ (oid : Nat) (old : Task) (u : Updates) (d : Option JsVal), u.Checked ∧ old ∈ db.docs ∧ old._id = oid ∧
      (routerPut drv id body db).db =
        ⟨replaceById oid (old.applyUpdates ⟨u.title, d, u.status⟩) db.docs, db.nextId⟩ := by
  unfold routerPut
  by_cases hguard : (body.status.truthy && !validStatusesIncludes body.status) = true
  · left; rw [if_pos hguard]
  rw [if_neg hguard]
  cases hb : buildUpdates body with
  | respond code m => left; rfl
  | typeError => left; rfl
  | updates u =>
    have hchecked := buildUpdates_checked body u hguard hb
    simp only [findByIdAndUpdate_checked drv id u db hchecked]
    cases hid : drv.castObjectId id with
    | none => left; rfl
    | some oid =>
      cases hd : TaskSchema.description.castUpdate u.description with
      | none => left; rfl
      | some d =>
        cases hfind : db.docs.find? (fun x => x._id == oid) with
        | none => left; simp only [hfind]
        | some old =>
          right
          refine ⟨oid, old, u, d, hchecked, List.mem_of_find?_eq_some hfind,
            find?_id_eq oid db.docs old hfind, ?_⟩
          simp only [hfind]

/-- The delete handler leaves the collection as it is or removes one
document. -/
theorem routerDelete_db (drv : Driver) (id : String) (db : Db) :
    (routerDelete drv id db).db = db ∨
    ∃ oid, (routerDelete drv id db).db = ⟨removeById oid db.docs, db.nextId⟩ := by
  unfold routerDelete Task.findByIdAndDelete
  cases drv.castObjectId id with
  | none => left; rfl
  | some oid =>
    cases hfind : db.docs.find? (fun x => x._id == oid) with
    | none => left; simp only [hfind]
    | some old => right; exact ⟨oid, by simp only [hfind]⟩

/-- Identifiers in a reachable collection are distinct and below the next
identifier. -/
theorem reachable_ids (drv : Driver) (db : Db) (h : Reachable drv db) :
    (db.docs.map Task._id).Nodup ∧ ∀ t ∈ db.docs, t._id < db.nextId := by
  induction h with
  | empty => simp
  | post now body db _ ih =>
    rcases routerPost_cases drv now body db with ⟨hdb, -⟩ | ⟨s, d, st, -, -, -, -, hres⟩
    · rw [hdb]; exact ih
    · rw [hres]
      constructor
      · simp only [List.map_append, List.map_cons, List.map_nil]
        rw [List.nodup_append]
        refine ⟨ih.1, List.nodup_singleton _, ?_⟩
        intro a ha hb
        simp only [List.mem_singleton] at hb
        obtain ⟨t, ht, hta⟩ := List.mem_map.1 ha
        have := ih.2 t ht
        omega
      · intro t ht
        simp only [List.mem_append, List.mem_singleton] at ht
        rcases ht with ht | ht
        · have := ih.2 t ht
          simp only
          omega
        · rw [ht]
          simp
  | put id body db _ ih =>
    rcases routerPut_db drv id body db with hdb | ⟨oid, old, u, d, -, hold, hoid, hdb⟩
    · rw [hdb]; exact ih
    · rw [hdb]
      have hnew : (old.applyUpdates ⟨u.title, d, u.status⟩)._id = oid := hoid
      constructor
      · simp only
        rw [map_id_replaceById oid _ db.docs hnew]
        exact ih.1
      · intro t ht
        rcases mem_replaceById _ _ _ t ht with h | h
        · rw [h]
          exact ih.2 old hold
        · exact ih.2 t h
  | delete id db _ ih =>
    rcases routerDelete_db drv id db with hdb | ⟨oid, hdb⟩
    · rw [hdb]; exact ih
    · rw [hdb]
      constructor
      · exact ih.1.sublist ((removeById_sublist oid db.docs).map _)
      · intro t ht
        exact ih.2 t ((removeById_sublist oid db.docs).subset ht)

/-- In every reachable collection every task has a title that is a string not
empty after trimming, and a status that is `Pending`, `Completed`, or `null`
where the `enum` validator of the driver accepts `null`. -/
theorem reachable_title_status (drv : Driver) (db : Db) (h : Reachable drv db) :
    ∀ t ∈ db.docs, t.titleOk = true ∧
      (t.statusInEnum = true ∨ (drv.enumAllowsNull = true ∧ t.status = .null)) := by
  induction h with
  | empty => simp
  | post now body db _ ih =>
    rcases routerPost_cases drv now body db with ⟨hdb, -⟩ | ⟨s, d, st, -, hne, -, hst, hres⟩
    · rw [hdb]; exact ih
    · rw [hres]
      intro t ht
      simp only [List.mem_append, List.mem_singleton] at ht
      rcases ht with ht | ht
      · exact ih t ht
      · subst ht
        refine ⟨by simp [Task.titleOk, jsTrim_idem, hne], ?_⟩
        rcases hst with ⟨-, h2⟩ | ⟨h1, h2⟩ | ⟨-, hn, h2⟩
        · left; rw [h2]; rfl
        · left
          rw [h2]
          exact (validStatusesIncludes_iff _).2 h1
        · exact Or.inr ⟨hn, h2⟩
  | put id body db _ ih =>
    rcases routerPut_db drv id body db with hdb | ⟨oid, old, u, d, hchecked, hold, -, hdb⟩
    · rw [hdb]; exact ih
    · rw [hdb]
      intro t ht
      rcases mem_replaceById _ _ _ t ht with h | h
      · subst h
        have hold' := ih old hold
        constructor
        · rcases hchecked.1 with h | ⟨s, h, hne, htrim⟩
          · simpa [Task.applyUpdates, Task.titleOk, h] using hold'.1
          · simp [Task.applyUpdates, Task.titleOk, h, htrim, hne]
        · rcases hchecked.2 with h | h | h
          · simpa [Task.applyUpdates, Task.statusInEnum, h] using hold'.2
          · left; simp [Task.applyUpdates, Task.statusInEnum, h, validStatusesIncludes_iff]
          · left; simp [Task.applyUpdates, Task.statusInEnum, h, validStatusesIncludes_iff]
      · exact ih t h
  | delete id db _ ih =>
    rcases routerDelete_db drv id db with hdb | ⟨oid, hdb⟩
    · rw [hdb]; exact ih
    · rw [hdb]
      intro t ht
      exact ih t ((removeById_sublist oid db.docs).subset ht)

/-- With a driver whose `enum` validator rejects `null`, every task of every
reachable collection has a status in the enum. -/
theorem reachable_status_strict (drv : Driver) (hstrict : drv.enumAllowsNull = false)
    (db : Db) (h : Reachable drv db) :
    ∀ t ∈ db.docs, t.titleOk = true ∧ t.statusInEnum = true := by
  intro t ht
  obtain ⟨h1, h2⟩ := reachable_title_status drv db h t ht
  refine ⟨h1, ?_⟩
  rcases h2 with h2 | ⟨hn, -⟩
  · exact h2
  · rw [hstrict] at hn; cases hn

/-- The same create payload under a driver whose `enum` validator rejects
`null`: the model call rejects, the handler answers 500 and nothing is
stored. -/
theorem create_null_status_strict :
    routerPost strictDriver 10 ⟨.str "Buy milk", .undefined, .null⟩ ⟨[], 0⟩ =
      ⟨.response 500 (.message "Failed to create task"), ⟨[], 0⟩,
        [.create ⟨.str "Buy milk", .undefined, .null⟩]⟩ :=
  rfl

/-- C8 (failing input): with a driver whose `enum` validator accepts `null`,
the create payload with title `Buy milk` and status `null` is answered 201 and
leaves a reachable collection whose only task has the status `null`, which is
neither `Pending` nor `Completed`; so the status part of the invariant does not
hold in every reachable collection. -/
theorem C8_null_status_reaches_store :
    routerPost hexDriver 10 ⟨.str "Buy milk", .undefined, .null⟩ ⟨[], 0⟩ =
      ⟨.response 201 (.task ⟨0, .str "Buy milk", .undefined, .null, 10, 0⟩),
        ⟨[⟨0, .str "Buy milk", .undefined, .null, 10, 0⟩], 1⟩,
        [.create ⟨.str "Buy milk", .undefined, .null⟩]⟩ ∧
    Reachable hexDriver ⟨[⟨0, .str "Buy milk", .undefined, .null, 10, 0⟩], 1⟩ ∧
    (⟨0, .str "Buy milk", .undefined, .null, 10, 0⟩ : Task).statusInEnum = false ∧
    ¬ (∀ (drv : Driver) (db : Db), Reachable drv db →
        ∀ t ∈ db.docs, t.titleOk = true ∧ t.statusInEnum = true) := by
  have hreach : Reachable hexDriver ⟨[⟨0, .str "Buy milk", .undefined, .null, 10, 0⟩], 1⟩ :=
    Reachable.post 10 ⟨.str "Buy milk", .undefined, .null⟩ ⟨[], 0⟩ Reachable.empty
  refine ⟨rfl, hreach, rfl, ?_⟩
  intro h
  have h1 := (h hexDriver _ hreach ⟨0, .str "Buy milk", .undefined, .null, 10, 0⟩
    (List.mem_singleton.2 rfl)).2
  exact absurd h1 (by decide)

/-- The scenario of the specification, run on the empty collection: create
`Buy milk`, toggle its status to `Completed`, delete it, then update the same
identifier, which is answered 404. -/
theorem scenario_create_toggle_delete_update :
    let id := "000000000000000000000000"
    let r1 := routerPost hexDriver 10 ⟨.str "Buy milk", .undefined, .undefined⟩ ⟨[], 0⟩
    let r2 := routerPut hexDriver id ⟨.undefined, .undefined, .str "Completed"⟩ r1.db
    let r3 := routerDelete hexDriver id r2.db
    let r4 := routerPut hexDriver id ⟨.undefined, .undefined, .str "Pending"⟩ r3.db
    r1.outcome = .response 201 (.task ⟨0, .str "Buy milk", .undefined, .str "Pending", 10, 0⟩) ∧
    r2.outcome = .response 200 (.task ⟨0, .str "Buy milk", .undefined, .str "Completed", 10, 0⟩) ∧
    r3.outcome = .response 200 (.message "Task deleted") ∧
    r4.outcome = .response 404 (.message "Task not found") :=
  ⟨rfl, rfl, rfl, rfl⟩

end TaskApi
